import Mathlib

/-!
Verification development for the VedaVision plant-identification client.

The embedding follows the TypeScript sources:
* `services/geminiService.ts` — `analyzePlantImage` with its API-key guard,
  data-URL preprocessing (`split(',')[1] || base64Image` and the mime-type
  regex), the consistency correction on the parsed response, and the
  uniform error collapse in the `catch` block;
* `components/ImageUploader.tsx` — `processFile` validation and the camera
  stream lifecycle (`startCamera` / `stopCamera` / `capturePhoto`);
* `components/PlantDetails.tsx` — the `identified` branch of the view;
* `App.tsx` — `handleImageSelect` state updates.

JavaScript strings are modelled as Lean `String`s (with `List Char`
workhorses), `undefined`-able strings as `Option String`, and JS
truthiness of such values made explicit.
-/

/-- Truthiness of a possibly-`undefined` JavaScript string: `undefined`
and the empty string are falsy, every other string is truthy. -/
def jsStrOptFalsy : Option String → Bool
  | none => true
  | some s => s == ""

/-- Fallback choice `x || b` for a possibly-`undefined` JavaScript string
`x`: returns `b` when `x` is falsy, otherwise the string itself. -/
def jsOrStr (x : Option String) (b : String) : String :=
  match x with
  | none => b
  | some s => if s = "" then b else s

/-- Entry of `preparationMethods` (types.ts). -/
structure PreparationMethod where
  methodName : String
  instructions : String
deriving DecidableEq

/-- The `dosage` object (types.ts): all three fields required when present. -/
structure Dosage where
  children : String
  adults : String
  elderly : String
deriving DecidableEq

/-- The `ayurvedicProperties` object (types.ts): all fields optional. -/
structure AyurvedicProperties where
  rasa : Option String
  virya : Option String
  vipaka : Option String
  doshaKarma : Option String
deriving DecidableEq

/-- The `PlantAnalysisResult` interface of types.ts. -/
structure PlantAnalysisResult where
  identified : Bool
  commonName : Option String
  botanicalName : Option String
  ayurvedicName : Option String
  family : Option String
  shortDescription : Option String
  medicinalUses : Option (List String)
  preparationMethods : Option (List PreparationMethod)
  dosage : Option Dosage
  safetyWarnings : Option (List String)
  ayurvedicProperties : Option AyurvedicProperties
  confidenceScore : Int
  safetyProfileScore : Int
deriving DecidableEq

/-- The safety check of geminiService.ts lines 111-115:
`if (data.identified && !data.commonName) { data.identified = false; }`.
An `identified` flag with a falsy (`undefined` or empty) `commonName` is
forced to `false`; otherwise the parsed data is returned untouched. -/
def interpretResult (data : PlantAnalysisResult) : PlantAnalysisResult :=
  if data.identified && jsStrOptFalsy data.commonName then
    { data with identified := false }
  else
    data

/-- JavaScript `String.prototype.split` with a single-character separator,
on the character list of the string: `"a,b".split(',') = ["a","b"]`,
`"".split(',') = [""]`, `"a,".split(',') = ["a",""]`. -/
def jsSplit (sep : Char) : List Char → List (List Char)
  | [] => [[]]
  | c :: cs =>
    match jsSplit sep cs with
    | [] => [[]]
    | seg :: rest => if c = sep then [] :: seg :: rest else (c :: seg) :: rest

/-- Preprocessing of geminiService.ts line 72:
`const cleanBase64 = base64Image.split(',')[1] || base64Image;`.
The element at index 1 of the split (if any) is used, unless it is the
empty string (falsy), in which case the whole input is forwarded. -/
def cleanBase64Of (base64Image : String) : String :=
  jsOrStr (((jsSplit ',' base64Image.data).get? 1).map String.mk) base64Image

/-- Character class `[a-zA-Z0-9]` of the mime-type regex. -/
def isAlnumChar (c : Char) : Bool :=
  ('a' ≤ c && c ≤ 'z') || ('A' ≤ c && c ≤ 'Z') || ('0' ≤ c && c ≤ '9')

/-- Character class `[a-zA-Z0-9-.+]` of the mime-type regex. -/
def isSubtypeChar (c : Char) : Bool :=
  isAlnumChar c || c = '-' || c = '.' || c = '+'

/-- Attempt of the regex `data:([a-zA-Z0-9]+\/[a-zA-Z0-9-.+]+).*,.*` at a
fixed position, after the literal `data:` has been consumed; returns the
text captured by group 1. The greedy character-class runs are maximal
(`takeWhile`); the trailing `.*,.*` succeeds exactly when a comma occurs
after the capture and before any newline (`.` does not match a newline),
and backtracking the runs cannot change that, since class characters are
neither commas nor newlines. -/
def tryMatchAt (cs : List Char) : Option (List Char) :=
  if cs.takeWhile isAlnumChar = [] then none
  else
    match cs.dropWhile isAlnumChar with
    | [] => none
    | c :: r2 =>
      if c = '/' then
        if r2.takeWhile isSubtypeChar = [] then none
        else if ',' ∈ (r2.dropWhile isSubtypeChar).takeWhile (fun d => !(d = '\n')) then
          some (cs.takeWhile isAlnumChar ++ '/' :: r2.takeWhile isSubtypeChar)
        else none
      else none

/-- Leading-literal test for the scan of `findDataMime`. -/
def startsWithData : List Char → Bool
  | c1 :: c2 :: c3 :: c4 :: c5 :: _ =>
    c1 == 'd' && c2 == 'a' && c3 == 't' && c4 == 'a' && c5 == ':'
  | _ => false

/-- Leftmost-match search of the regex
`data:([a-zA-Z0-9]+\/[a-zA-Z0-9-.+]+).*,.*` over the whole string
(JavaScript `String.prototype.match` is a search, not anchored):
positions are tried left to right and the first full match yields its
group 1. -/
def findDataMime : List Char → Option (List Char)
  | [] => none
  | c :: cs =>
    if startsWithData (c :: cs) then
      match tryMatchAt ((c :: cs).drop 5) with
      | some g => some g
      | none => findDataMime cs
    else findDataMime cs

/-- Preprocessing of geminiService.ts line 73:
`const mimeType = base64Image.match(/data:([a-zA-Z0-9]+\/[a-zA-Z0-9-.+]+).*,.*/)?.[1] || "image/jpeg";`. -/
def mimeTypeOf (base64Image : String) : String :=
  jsOrStr ((findDataMime base64Image.data).map String.mk) "image/jpeg"

/-- Payload of the single request issued to the external service: the
inline image data and its media type (geminiService.ts lines 81-84). -/
structure GeminiRequest where
  mimeType : String
  data : String
deriving DecidableEq

/-- Outcome of the external `generateContent` call, as seen by the caller:
either the promise rejects (transport-level failure) or it resolves with a
possibly-`undefined` `response.text`. -/
inductive SvcResult where
  | throwErr
  | ok (text : Option String)
deriving DecidableEq

/-- The `analyzePlantImage` function of geminiService.ts. The external
call's outcome and the JSON parser are passed as parameters (`svc`,
`parseJson`, with `parseJson t = none` when `JSON.parse` would throw);
`apiKey` is the module-level `processEnvApiKey`. Returns the result of
the promise together with the list of requests issued to the service.
Inside the `try` block, a falsy `response.text` raises
`"No response from AI"` and a parse failure raises from `JSON.parse`;
both are caught by the `catch`, which rethrows the single generic
message, as does a transport failure. -/
def analyzePlantImage (apiKey : Option String) (svc : SvcResult)
    (parseJson : String → Option PlantAnalysisResult) (base64Image : String) :
    Except String PlantAnalysisResult × List GeminiRequest :=
  if jsStrOptFalsy apiKey then
    (.error "API Key is missing. Please configure the environment.", [])
  else
    let req : GeminiRequest :=
      { mimeType := mimeTypeOf base64Image, data := cleanBase64Of base64Image }
    match svc with
    | .throwErr => (.error "Failed to process the image. Please try again.", [req])
    | .ok text =>
      if jsStrOptFalsy text then
        (.error "Failed to process the image. Please try again.", [req])
      else
        match parseJson (text.getD "") with
        | none => (.error "Failed to process the image. Please try again.", [req])
        | some data => (.ok (interpretResult data), [req])

/-- Modelled from the spec: `constants.ts` is imported by
ImageUploader.tsx but is not among the sources; the spec fixes the
allow-list of media types to JPEG, PNG and WebP. -/
def SUPPORTED_IMAGE_TYPES : List String :=
  ["image/jpeg", "image/png", "image/webp"]

/-- A browser `File` as `processFile` consumes it: its reported media
type, its size in bytes, and the data URL that `FileReader.readAsDataURL`
produces for it. -/
structure JsFile where
  type : String
  size : Nat
  dataURL : String
deriving DecidableEq

/-- The `processFile` function of ImageUploader.tsx lines 35-52.
`maxSizeMB` is the `MAX_IMAGE_SIZE_MB` constant (modelled from the spec:
`constants.ts` is not among the sources and the spec leaves the maximum
size configurable, in megabytes). Returns the list of `alert` messages
shown and the list of `onImageSelect` invocations; the `FileReader`
success path delivers the file's data URL to the callback. -/
def processFile (maxSizeMB : Nat) (file : JsFile) :
    List String × List String :=
  if !(SUPPORTED_IMAGE_TYPES.contains file.type) then
    (["Please upload a valid image (JPEG, PNG, WebP)."], [])
  else if file.size > maxSizeMB * 1024 * 1024 then
    (["Image size should be less than " ++ toString maxSizeMB ++ "MB."], [])
  else
    ([], [file.dataURL])

/-- What the `PlantDetails` component renders: the dedicated
"Identification Uncertain" panel or the full detail view of the data. -/
inductive PlantView where
  | uncertainView
  | detailView (data : PlantAnalysisResult)
deriving DecidableEq

/-- The branch of PlantDetails.tsx lines 18-31:
`if (!data.identified) return ⟨uncertain panel⟩;` and otherwise the full
detail view. -/
def renderPlantDetails (data : PlantAnalysisResult) : PlantView :=
  if !data.identified then .uncertainView else .detailView data

/-- The analysis-related state of `App` (App.tsx lines 10-13). -/
structure AppState where
  selectedImage : Option String
  isAnalyzing : Bool
  result : Option PlantAnalysisResult
  error : Option String
deriving DecidableEq

/-- Synchronous phase of `handleImageSelect` (App.tsx lines 43-47), run
before the `await` of the analysis call: stores the image and clears any
prior result and error while entering the analyzing state. -/
def handleImageSelectStart (s : AppState) (base64Image : String) : AppState :=
  { s with
    selectedImage := some base64Image
    result := none
    error := none
    isAnalyzing := true }

/-- Completion phase of `handleImageSelect` (App.tsx lines 49-57): a
resolved analysis stores the result, a rejected one stores
`err.message || "Failed to analyze the image. Please try again."`; the
`finally` clause leaves the analyzing state. -/
def handleImageSelectFinish (s : AppState)
    (outcome : Except String PlantAnalysisResult) : AppState :=
  match outcome with
  | .ok analysisData =>
    { s with result := some analysisData, isAnalyzing := false }
  | .error m =>
    { s with
      error := some (if m = "" then "Failed to analyze the image. Please try again." else m)
      isAnalyzing := false }

/-- A `MediaStreamTrack`, reduced to whether `track.stop()` has been
called on it. -/
structure MediaTrack where
  stopped : Bool
deriving DecidableEq

/-- Camera-related state of `ImageUploader` (ImageUploader.tsx lines
13-15): the `stream` handle with its tracks, the `isCameraOpen` flag and
the `cameraError` message. -/
structure CameraState where
  stream : Option (List MediaTrack)
  isCameraOpen : Bool
  cameraError : Option String
deriving DecidableEq

/-- Effect of `stream.getTracks().forEach(track => track.stop())`. -/
def stopTracks (ts : List MediaTrack) : List MediaTrack :=
  ts.map (fun _ => { stopped := true })

/-- The `stopCamera` function of ImageUploader.tsx lines 134-141: stops
every track of the current stream (returned so their final state stays
observable after the handle is dropped), clears the stream handle,
closes the camera view and clears the error. -/
def stopCamera (s : CameraState) : CameraState × List MediaTrack :=
  match s.stream with
  | some ts =>
    ({ stream := none, isCameraOpen := false, cameraError := none }, stopTracks ts)
  | none =>
    ({ stream := none, isCameraOpen := false, cameraError := none }, [])

/-- The `capturePhoto` function of ImageUploader.tsx lines 143-164.
`videoReady` models `videoRef.current && videoRef.current.videoWidth > 0`
at click time, `videoAlive` models `videoRef.current` still being mounted
inside the `setTimeout` callback, and `ctxOk` models
`canvas.getContext('2d')` returning a context; `dataUrl` is what
`canvas.toDataURL('image/jpeg', 0.85)` yields. Returns the new state, the
tracks stopped, and the `onImageSelect` invocations. -/
def capturePhoto (s : CameraState) (videoReady videoAlive ctxOk : Bool)
    (dataUrl : String) : CameraState × List MediaTrack × List String :=
  if videoReady then
    if videoAlive then
      if ctxOk then
        match stopCamera s with
        | (s2, ts) => (s2, ts, [dataUrl])
      else (s, [], [])
    else (s, [], [])
  else (s, [], [])

/-- Events driving the camera state: opening in an insecure context
(ImageUploader.tsx lines 83-87), `getUserMedia` resolving with a stream
(either constraint attempt, lines 92-110), both attempts failing with the
categorized message (lines 111-131), the user cancelling (`stopCamera`
via the close or cancel buttons), and a capture attempt. -/
inductive CamEvent where
  | openInsecure
  | openSuccess (ts : List MediaTrack)
  | openFailure (msg : String)
  | cancel
  | capture (videoReady videoAlive ctxOk : Bool) (dataUrl : String)

/-- One step of the camera lifecycle: the state update each event
performs in ImageUploader.tsx, with the stopped tracks and the
`onImageSelect` invocations it produces. -/
def camStep (s : CameraState) : CamEvent → CameraState × List MediaTrack × List String
  | .openInsecure =>
    ({ s with cameraError := some "Camera access requires a secure connection (HTTPS) or localhost."
              isCameraOpen := true }, [], [])
  | .openSuccess ts =>
    ({ stream := some ts, isCameraOpen := true, cameraError := none }, [], [])
  | .openFailure msg =>
    ({ s with isCameraOpen := true, cameraError := some msg }, [], [])
  | .cancel =>
    match stopCamera s with
    | (s2, ts) => (s2, ts, [])
  | .capture videoReady videoAlive ctxOk dataUrl =>
    capturePhoto s videoReady videoAlive ctxOk dataUrl

/-- Resource invariant of the camera: whenever the camera view is closed,
no stream handle is held. -/
def camClosedReleased (s : CameraState) : Prop :=
  s.isCameraOpen = false → s.stream = none

/-- Helper: a successful run of `analyzePlantImage` is the interpretation
of some parsed response, and issues exactly one request. -/
lemma analyzePlantImage_ok {apiKey : Option String} {svc : SvcResult}
    {parseJson : String → Option PlantAnalysisResult} {base64Image : String}
    {r : PlantAnalysisResult} {reqs : List GeminiRequest}
    (h : analyzePlantImage apiKey svc parseJson base64Image = (.ok r, reqs)) :
    ∃ d, r = interpretResult d := by
  unfold analyzePlantImage at h
  split at h
  · simp at h
  · split at h
    · simp at h
    · split at h
      · simp at h
      · split at h
        · simp at h
        · rename_i d hd
          refine ⟨d, ?_⟩
          have := congrArg Prod.fst h
          simp at this
          exact this.symm

/-- C1. The consistency correction forces `identified` to `false` when the
parsed response claims identification with an absent or empty
`commonName`; consequently every successful result of `analyzePlantImage`
with `identified = true` carries a present, non-empty `commonName`. -/
theorem c1_identified_implies_commonName :
    (∀ d : PlantAnalysisResult,
      d.identified = true → jsStrOptFalsy d.commonName = true →
      (interpretResult d).identified = false) ∧
    (∀ (apiKey : Option String) (svc : SvcResult)
       (parseJson : String → Option PlantAnalysisResult) (base64Image : String)
       (r : PlantAnalysisResult) (reqs : List GeminiRequest),
      analyzePlantImage apiKey svc parseJson base64Image = (.ok r, reqs) →
      r.identified = true → ∃ s, r.commonName = some s ∧ s ≠ "") := by
  constructor
  · intro d h1 h2
    simp [interpretResult, h1, h2]
  · intro apiKey svc parseJson base64Image r reqs h hid
    obtain ⟨d, hd⟩ := analyzePlantImage_ok h
    subst hd
    by_cases hc : (d.identified && jsStrOptFalsy d.commonName) = true
    · simp [interpretResult, hc] at hid
    · have hid' : d.identified = true := by simpa [interpretResult, hc] using hid
      have hfalsy : jsStrOptFalsy d.commonName = false := by
        cases hval : jsStrOptFalsy d.commonName
        · rfl
        · exact absurd (by simp [hid', hval]) hc
      rcases hcn : d.commonName with _ | s
      · rw [hcn] at hfalsy; simp [jsStrOptFalsy] at hfalsy
      · have hf2 : jsStrOptFalsy (some s) = false := hcn ▸ hfalsy
        refine ⟨s, ?_, ?_⟩
        · simp [interpretResult, hcn, hf2]
        · simpa [jsStrOptFalsy] using hf2

/-- Sample fully-populated identified result, used to instantiate
universally quantified theorems. -/
def sampleNeem : PlantAnalysisResult :=
  { identified := true
    commonName := some "Neem"
    botanicalName := some "Azadirachta indica"
    ayurvedicName := some "Nimba"
    family := some "Meliaceae"
    shortDescription := some "Bitter medicinal tree"
    medicinalUses := some ["Skin health", "Blood purification"]
    preparationMethods := some [{ methodName := "Decoction", instructions := "Boil leaves in water" }]
    dosage := some { children := "Consult a doctor", adults := "One cup daily", elderly := "Half cup daily" }
    safetyWarnings := some ["Avoid during pregnancy"]
    ayurvedicProperties := some { rasa := some "Bitter", virya := some "Cold", vipaka := some "Pungent", doshaKarma := some "Pacifies Pitta" }
    confidenceScore := 92
    safetyProfileScore := 8 }

/-- Witness for C1 at concrete inputs: a parsed response claiming
identification with an empty `commonName` is downgraded, and a concrete
successful run yields a result whose `commonName` is non-empty. -/
theorem c1_witness :
    (interpretResult { sampleNeem with commonName := some "" }).identified = false ∧
    (∃ s, sampleNeem.commonName = some s ∧ s ≠ "") :=
  ⟨c1_identified_implies_commonName.1 { sampleNeem with commonName := some "" } rfl rfl,
   c1_identified_implies_commonName.2 (some "key") (.ok (some "resp"))
     (fun _ => some sampleNeem) "img" sampleNeem
     [{ mimeType := "image/jpeg", data := "img" }] rfl rfl⟩

/-- C4. A falsy service credential makes `analyzePlantImage` fail at once
with the configuration-error message, with no request issued. -/
theorem c4_missing_api_key :
    ∀ (apiKey : Option String) (svc : SvcResult)
      (parseJson : String → Option PlantAnalysisResult) (base64Image : String),
      jsStrOptFalsy apiKey = true →
      analyzePlantImage apiKey svc parseJson base64Image =
        (.error "API Key is missing. Please configure the environment.", []) := by
  intro apiKey svc parseJson base64Image h
  simp [analyzePlantImage, h]

/-- Witness for C4: with the credential absent, the run returns the
configuration error and the request list is empty. -/
theorem c4_witness :
    analyzePlantImage none (.ok (some "resp")) (fun _ => some sampleNeem) "img" =
      (.error "API Key is missing. Please configure the environment.", []) :=
  c4_missing_api_key none (.ok (some "resp")) (fun _ => some sampleNeem) "img" rfl

/-- C5. Every failure during or after the external call — transport
failure, absent or empty response text, or an unparsable response — is
collapsed to the single generic message, and no result is returned. -/
theorem c5_uniform_failure :
    ∀ (apiKey : Option String) (svc : SvcResult)
      (parseJson : String → Option PlantAnalysisResult) (base64Image : String),
      jsStrOptFalsy apiKey = false →
      (svc = .throwErr ∨ svc = .ok none ∨
        ∃ t, svc = .ok (some t) ∧ (t = "" ∨ parseJson t = none)) →
      (analyzePlantImage apiKey svc parseJson base64Image).1 =
        .error "Failed to process the image. Please try again." := by
  intro apiKey svc parseJson base64Image hkey hfail
  rcases hfail with rfl | rfl | ⟨t, rfl, hbad⟩
  · simp [analyzePlantImage, hkey]
  · simp [analyzePlantImage, hkey, show jsStrOptFalsy (none : Option String) = true from rfl]
  · by_cases ht : t = ""
    · subst ht
      simp [analyzePlantImage, hkey, show jsStrOptFalsy (some "") = true from rfl]
    · rcases hbad with rfl | hp
      · exact absurd rfl ht
      · simp [analyzePlantImage, hkey, show jsStrOptFalsy (some t) = (t == "") from rfl,
              ht, hp]

/-- Witness for C5 at concrete inputs: a transport failure and an
unparsable response both yield the generic message. -/
theorem c5_witness :
    (analyzePlantImage (some "key") .throwErr (fun _ => some sampleNeem) "img").1 =
      .error "Failed to process the image. Please try again." ∧
    (analyzePlantImage (some "key") (.ok (some "garbage")) (fun _ => none) "img").1 =
      .error "Failed to process the image. Please try again." :=
  ⟨c5_uniform_failure (some "key") .throwErr (fun _ => some sampleNeem) "img" rfl
     (Or.inl rfl),
   c5_uniform_failure (some "key") (.ok (some "garbage")) (fun _ => none) "img" rfl
     (Or.inr (Or.inr ⟨"garbage", rfl, Or.inr rfl⟩))⟩

/-- C6. Any result with `identified = false` renders the dedicated
"Identification Uncertain" view, whatever else is populated. -/
theorem c6_uncertain_view :
    ∀ data : PlantAnalysisResult, data.identified = false →
      renderPlantDetails data = .uncertainView := by
  intro data h
  simp [renderPlantDetails, h]

/-- Witness for C6: a result with every other field populated but
`identified = false` still renders the uncertain view. -/
theorem c6_witness :
    renderPlantDetails { sampleNeem with identified := false } = .uncertainView :=
  c6_uncertain_view { sampleNeem with identified := false } rfl

/-- C7. The consistency correction is the only transformation: every
field other than `identified` is preserved by `interpretResult`, and
`identified` itself is preserved whenever the correction's condition does
not hold. -/
theorem c7_interpret_only_identified :
    ∀ d : PlantAnalysisResult,
      ((interpretResult d).commonName = d.commonName ∧
       (interpretResult d).botanicalName = d.botanicalName ∧
       (interpretResult d).ayurvedicName = d.ayurvedicName ∧
       (interpretResult d).family = d.family ∧
       (interpretResult d).shortDescription = d.shortDescription ∧
       (interpretResult d).medicinalUses = d.medicinalUses ∧
       (interpretResult d).preparationMethods = d.preparationMethods ∧
       (interpretResult d).dosage = d.dosage ∧
       (interpretResult d).safetyWarnings = d.safetyWarnings ∧
       (interpretResult d).ayurvedicProperties = d.ayurvedicProperties ∧
       (interpretResult d).confidenceScore = d.confidenceScore ∧
       (interpretResult d).safetyProfileScore = d.safetyProfileScore) ∧
      (¬(d.identified = true ∧ jsStrOptFalsy d.commonName = true) →
        (interpretResult d).identified = d.identified) := by
  intro d
  constructor
  · unfold interpretResult
    split <;> simp
  · intro hcond
    unfold interpretResult
    rw [if_neg (by simpa [Bool.and_eq_true] using hcond)]

/-- Witness for C7: on a concrete identified result with a non-empty
name, all fields, `identified` included, are unchanged. -/
theorem c7_witness :
    (interpretResult sampleNeem).commonName = sampleNeem.commonName ∧
    (interpretResult sampleNeem).identified = sampleNeem.identified :=
  ⟨(c7_interpret_only_identified sampleNeem).1.1,
   (c7_interpret_only_identified sampleNeem).2 (by simp [jsStrOptFalsy, sampleNeem])⟩

/-- C8. Entering a new analysis clears the prior result and error before
the analyzing state is entered, and stores the new image. -/
theorem c8_new_analysis_clears_stale_state :
    ∀ (s : AppState) (base64Image : String),
      (handleImageSelectStart s base64Image).result = none ∧
      (handleImageSelectStart s base64Image).error = none ∧
      (handleImageSelectStart s base64Image).isAnalyzing = true ∧
      (handleImageSelectStart s base64Image).selectedImage = some base64Image := by
  intro s base64Image
  exact ⟨rfl, rfl, rfl, rfl⟩

/-- C3. Intake accepts exactly the files whose media type is in the
allow-list and whose size is within the configured maximum, invoking the
image-select callback exactly once with the file's data URL; any other
file produces one validation message and zero callback invocations. -/
theorem c3_intake_validation :
    ∀ (maxSizeMB : Nat) (file : JsFile),
      (SUPPORTED_IMAGE_TYPES.contains file.type = true →
       file.size ≤ maxSizeMB * 1024 * 1024 →
       processFile maxSizeMB file = ([], [file.dataURL])) ∧
      (SUPPORTED_IMAGE_TYPES.contains file.type = false ∨
       file.size > maxSizeMB * 1024 * 1024 →
       ∃ msg, processFile maxSizeMB file = ([msg], [])) := by
  intro maxSizeMB file
  constructor
  · intro hty hsz
    have hmem : file.type ∈ SUPPORTED_IMAGE_TYPES := by simpa using hty
    simp [processFile, hmem, Nat.not_lt.mpr hsz]
  · intro hbad
    by_cases hmem : file.type ∈ SUPPORTED_IMAGE_TYPES
    · have hsz : maxSizeMB * 1024 * 1024 < file.size := by
        rcases hbad with hty | hsz
        · exact absurd hmem (by simpa using hty)
        · exact hsz
      exact ⟨"Image size should be less than " ++ toString maxSizeMB ++ "MB.",
        by simp [processFile, hmem, hsz]⟩
    · exact ⟨"Please upload a valid image (JPEG, PNG, WebP).",
        by simp [processFile, hmem]⟩

/-- Witness for C3 at concrete files: a small PNG is accepted with one
callback invocation; a GIF and an oversized PNG are each rejected with a
message and no invocation. -/
theorem c3_witness :
    processFile 10 { type := "image/png", size := 1024, dataURL := "data:image/png;base64,AAAA" } =
      ([], ["data:image/png;base64,AAAA"]) ∧
    (∃ msg, processFile 10 { type := "image/gif", size := 1024, dataURL := "x" } = ([msg], [])) ∧
    (∃ msg, processFile 10 { type := "image/png", size := 99999999, dataURL := "x" } = ([msg], [])) :=
  ⟨(c3_intake_validation 10 _).1 (by decide) (by decide),
   (c3_intake_validation 10 _).2 (Or.inl (by decide)),
   (c3_intake_validation 10 _).2 (Or.inr (by decide))⟩

/-- C9 counterexample. A capture error does not release the camera: from
a live state with a running track, a capture attempt whose
`canvas.getContext('2d')` returns null leaves the component state
unchanged — `stopCamera` is never called, so the stream handle is still
present and its track still running. -/
theorem c9_counterexample_capture_error :
    capturePhoto { stream := some [{ stopped := false }], isCameraOpen := true, cameraError := none }
        true true false "data:image/jpeg;base64,CAP" =
      ({ stream := some [{ stopped := false }], isCameraOpen := true, cameraError := none }, [], []) ∧
    ¬ (capturePhoto { stream := some [{ stopped := false }], isCameraOpen := true, cameraError := none }
        true true false "data:image/jpeg;base64,CAP").1.stream = none := by
  exact ⟨by decide, by decide⟩

/-- C9 (amended). Release on the paths that actually leave the live
view: `stopCamera` (the cancel path) stops every track, clears the
stream handle and is idempotent; a successful `capturePhoto` (video
ready, ref still mounted in the timeout, canvas context available)
routes through `stopCamera`, so it releases the stream and stops its
tracks before invoking the callback once; a failed capture attempt does
not exit the live state at all — the state, stream included, is
unchanged, and release only happens on a subsequent cancel. -/
theorem c9_camera_release_amended :
    ∀ s : CameraState,
      ((stopCamera s).1.stream = none ∧
       (∀ tr ∈ (stopCamera s).2, tr.stopped = true) ∧
       stopCamera (stopCamera s).1 = ((stopCamera s).1, [])) ∧
      (∀ dataUrl : String,
        capturePhoto s true true true dataUrl =
          ((stopCamera s).1, (stopCamera s).2, [dataUrl])) ∧
      (∀ (videoReady videoAlive ctxOk : Bool) (dataUrl : String),
        ¬(videoReady = true ∧ videoAlive = true ∧ ctxOk = true) →
        capturePhoto s videoReady videoAlive ctxOk dataUrl = (s, [], [])) := by
  intro s
  refine ⟨?_, ?_, ?_⟩
  · cases h : s.stream with
    | none => simp [stopCamera, h]
    | some ts =>
      refine ⟨by simp [stopCamera, h], ?_, by simp [stopCamera, h]⟩
      intro tr htr
      simp [stopCamera, h, stopTracks] at htr
      obtain ⟨a, _, rfl⟩ := htr
      rfl
  · intro dataUrl
    rfl
  · intro videoReady videoAlive ctxOk dataUrl hne
    cases videoReady <;> cases videoAlive <;> cases ctxOk <;>
      first
        | rfl
        | exact absurd ⟨rfl, rfl, rfl⟩ hne

/-- Witness for C9 at a concrete live state with one running track: the
cancel path clears the handle, a committed capture releases the stream
with its track stopped and fires the callback once, and a capture
attempt with the video ref gone leaves the state unchanged. -/
theorem c9_witness_amended :
    (stopCamera { stream := some [{ stopped := false }], isCameraOpen := true, cameraError := none }).1.stream = none ∧
    capturePhoto { stream := some [{ stopped := false }], isCameraOpen := true, cameraError := none }
        true true true "data:image/jpeg;base64,CAP" =
      ((stopCamera { stream := some [{ stopped := false }], isCameraOpen := true, cameraError := none }).1,
       (stopCamera { stream := some [{ stopped := false }], isCameraOpen := true, cameraError := none }).2,
       ["data:image/jpeg;base64,CAP"]) ∧
    capturePhoto { stream := some [{ stopped := false }], isCameraOpen := true, cameraError := none }
        true false true "data:image/jpeg;base64,CAP" =
      ({ stream := some [{ stopped := false }], isCameraOpen := true, cameraError := none }, [], []) :=
  ⟨(c9_camera_release_amended _).1.1,
   (c9_camera_release_amended _).2.1 "data:image/jpeg;base64,CAP",
   (c9_camera_release_amended _).2.2 true false true "data:image/jpeg;base64,CAP" (by simp)⟩

/-- Helper: `jsSplit` never returns the empty list. -/
lemma jsSplit_ne_nil (sep : Char) (cs : List Char) : jsSplit sep cs ≠ [] := by
  cases cs with
  | nil => simp [jsSplit]
  | cons c cs =>
    simp only [jsSplit]
    split
    · simp
    · split <;> simp

/-- Helper: splitting a list free of the separator yields the single
segment consisting of the whole list. -/
lemma jsSplit_no_sep (sep : Char) (xs : List Char) (h : sep ∉ xs) :
    jsSplit sep xs = [xs] := by
  induction xs with
  | nil => rfl
  | cons c cs ih =>
    have hc : ¬(c = sep) := fun e => h (e ▸ List.mem_cons_self c cs)
    have hcs : sep ∉ cs := fun m => h (List.mem_cons_of_mem _ m)
    simp [jsSplit, ih hcs, hc]

/-- Helper: a separator-free prefix is absorbed into the first segment of
the split of the remainder. -/
lemma jsSplit_append_no_sep (sep : Char) (xs ys : List Char) (h : sep ∉ xs)
    {seg : List Char} {rest : List (List Char)}
    (hys : jsSplit sep ys = seg :: rest) :
    jsSplit sep (xs ++ ys) = (xs ++ seg) :: rest := by
  induction xs with
  | nil => simpa using hys
  | cons c cs ih =>
    have hc : ¬(c = sep) := fun e => h (e ▸ List.mem_cons_self c cs)
    have hcs : sep ∉ cs := fun m => h (List.mem_cons_of_mem _ m)
    simp [jsSplit, ih hcs, hc]

/-- Helper: splitting at a leading separator emits an empty first
segment. -/
lemma jsSplit_cons_sep (sep : Char) (ys : List Char) :
    jsSplit sep (sep :: ys) = [] :: jsSplit sep ys := by
  rcases h : jsSplit sep ys with _ | ⟨seg, rest⟩
  · exact absurd h (jsSplit_ne_nil sep ys)
  · simp [jsSplit, h]

/-- Helper: a list with exactly one separator splits into the two
surrounding segments. -/
lemma jsSplit_shape (w p : List Char) (hw : ',' ∉ w) (hp : ',' ∉ p) :
    jsSplit ',' (w ++ ',' :: p) = [w, p] := by
  have h1 : jsSplit ',' (',' :: p) = [] :: jsSplit ',' p := jsSplit_cons_sep _ _
  rw [jsSplit_no_sep ',' p hp] at h1
  simpa using jsSplit_append_no_sep ',' w (',' :: p) hw h1

/-- Helper: on input of the canonical data-URL shape, the regex attempt
after `data:` captures exactly `<type>/<subtype>`. -/
lemma tryMatchAt_shape (t u p : List Char) (ht : t ≠ []) (hu : u ≠ [])
    (hta : ∀ c ∈ t, isAlnumChar c = true) (hus : ∀ c ∈ u, isSubtypeChar c = true) :
    tryMatchAt (t ++ '/' :: (u ++ (';' :: 'b' :: 'a' :: 's' :: 'e' :: '6' :: '4' :: ',' :: p)))
      = some (t ++ '/' :: u) := by
  have hslash : isAlnumChar '/' = false := by decide
  have hsemi : isSubtypeChar ';' = false := by decide
  have htake1 : (t ++ '/' :: (u ++ (';' :: 'b' :: 'a' :: 's' :: 'e' :: '6' :: '4' :: ',' :: p))).takeWhile isAlnumChar = t := by
    rw [List.takeWhile_append_of_pos hta, List.takeWhile_cons, hslash]
    simp
  have hdrop1 : (t ++ '/' :: (u ++ (';' :: 'b' :: 'a' :: 's' :: 'e' :: '6' :: '4' :: ',' :: p))).dropWhile isAlnumChar = '/' :: (u ++ (';' :: 'b' :: 'a' :: 's' :: 'e' :: '6' :: '4' :: ',' :: p)) := by
    rw [List.dropWhile_append_of_pos hta, List.dropWhile_cons, hslash]
    simp
  have htake2 : (u ++ (';' :: 'b' :: 'a' :: 's' :: 'e' :: '6' :: '4' :: ',' :: p)).takeWhile isSubtypeChar = u := by
    rw [List.takeWhile_append_of_pos hus, List.takeWhile_cons, hsemi]
    simp
  have hdrop2 : (u ++ (';' :: 'b' :: 'a' :: 's' :: 'e' :: '6' :: '4' :: ',' :: p)).dropWhile isSubtypeChar = ';' :: 'b' :: 'a' :: 's' :: 'e' :: '6' :: '4' :: ',' :: p := by
    rw [List.dropWhile_append_of_pos hus, List.dropWhile_cons, hsemi]
    simp
  have hmem : ',' ∈ (';' :: 'b' :: 'a' :: 's' :: 'e' :: '6' :: '4' :: ',' :: p).takeWhile (fun d => !(d = '\n')) := by
    have hlit : ∀ c ∈ ([';', 'b', 'a', 's', 'e', '6', '4', ','] : List Char), (!(c = '\n')) = true := by decide
    rw [show (';' :: 'b' :: 'a' :: 's' :: 'e' :: '6' :: '4' :: ',' :: p : List Char)
          = [';', 'b', 'a', 's', 'e', '6', '4', ','] ++ p from rfl,
        List.takeWhile_append_of_pos hlit]
    simp
  unfold tryMatchAt
  rw [htake1, hdrop1, if_neg ht]
  simp only [if_true]
  rw [htake2, hdrop2, if_neg hu, if_pos hmem]

/-- Helper: a successful attempt right after a leading `data:` literal is
returned by the leftmost-match scan. -/
lemma findDataMime_shape (rest g : List Char) (h : tryMatchAt rest = some g) :
    findDataMime ('d' :: 'a' :: 't' :: 'a' :: ':' :: rest) = some g := by
  have hs : startsWithData ('d' :: 'a' :: 't' :: 'a' :: ':' :: rest) = true := rfl
  rw [findDataMime, if_pos hs]
  have hdrop : ('d' :: 'a' :: 't' :: 'a' :: ':' :: rest).drop 5 = rest := rfl
  rw [hdrop, h]

/-- Helper: the regex attempt fails on any comma-free input, since the
trailing `.*,.*` requires a comma. -/
lemma tryMatchAt_none (cs : List Char) (h : ',' ∉ cs) : tryMatchAt cs = none := by
  unfold tryMatchAt
  split
  · rfl
  · rcases hr : cs.dropWhile isAlnumChar with _ | ⟨c, r2⟩
    · rfl
    · have hnm : (',' : Char) ∉ (r2.dropWhile isSubtypeChar).takeWhile (fun d => !(d = '\n')) := by
        intro hmem
        have h1 : (',' : Char) ∈ r2.dropWhile isSubtypeChar :=
          (List.takeWhile_sublist _).subset hmem
        have h2 : (',' : Char) ∈ r2 := (List.dropWhile_sublist _).subset h1
        have h3 : (',' : Char) ∈ cs.dropWhile isAlnumChar := by
          rw [hr]; exact List.mem_cons_of_mem _ h2
        exact h ((List.dropWhile_sublist _).subset h3)
      by_cases hc : c = '/'
      · simp [hc, hnm]
      · simp [hc]

/-- Helper: the whole-string scan fails on any comma-free input. -/
lemma findDataMime_none (cs : List Char) (h : ',' ∉ cs) : findDataMime cs = none := by
  induction cs with
  | nil => rfl
  | cons c cs ih =>
    have hcs : ',' ∉ cs := fun m => h (List.mem_cons_of_mem _ m)
    have ht : tryMatchAt ((c :: cs).drop 5) = none :=
      tryMatchAt_none _ (fun m => h (List.drop_subset _ _ m))
    rw [findDataMime]
    split
    · rw [ht, ih hcs]
    · exact ih hcs

/-- Helper: the data-URL header up to (but excluding) the comma contains
no comma when type and subtype stay within their character classes. -/
lemma no_comma_shape (td ud : List Char)
    (hta : ∀ c ∈ td, isAlnumChar c = true) (hus : ∀ c ∈ ud, isSubtypeChar c = true) :
    (',' : Char) ∉ ('d' :: 'a' :: 't' :: 'a' :: ':' :: (td ++ '/' :: (ud ++ [';', 'b', 'a', 's', 'e', '6', '4'])) : List Char) := by
  intro hm
  rcases List.mem_cons.1 hm with h | hm
  · exact absurd h (by decide)
  rcases List.mem_cons.1 hm with h | hm
  · exact absurd h (by decide)
  rcases List.mem_cons.1 hm with h | hm
  · exact absurd h (by decide)
  rcases List.mem_cons.1 hm with h | hm
  · exact absurd h (by decide)
  rcases List.mem_cons.1 hm with h | hm
  · exact absurd h (by decide)
  rcases List.mem_append.1 hm with h | hm
  · exact absurd (hta _ h) (by decide)
  rcases List.mem_cons.1 hm with h | hm
  · exact absurd h (by decide)
  rcases List.mem_append.1 hm with h | hm
  · exact absurd (hus _ h) (by decide)
  · exact absurd hm (by decide)

/-- Helper: preprocessing of a canonical data-URL
`data:<type>/<subtype>;base64,<payload>` with comma-free payload: the
forwarded data is the payload unless the payload is empty (in which case
the falsy fallback forwards the entire input), and the inferred media
type is `<type>/<subtype>`. -/
lemma preprocess_shape (t u p : String) (ht : t ≠ "") (hu : u ≠ "")
    (hta : ∀ c ∈ t.data, isAlnumChar c = true)
    (hus : ∀ c ∈ u.data, isSubtypeChar c = true)
    (hp : ',' ∉ p.data) :
    cleanBase64Of ("data:" ++ t ++ "/" ++ u ++ ";base64," ++ p)
      = (if p = "" then "data:" ++ t ++ "/" ++ u ++ ";base64," ++ p else p)
    ∧ mimeTypeOf ("data:" ++ t ++ "/" ++ u ++ ";base64," ++ p) = t ++ "/" ++ u := by
  have htd : t.data ≠ [] := fun e => ht (String.ext e)
  have hud : u.data ≠ [] := fun e => hu (String.ext e)
  have hdata : ("data:" ++ t ++ "/" ++ u ++ ";base64," ++ p).data
      = 'd' :: 'a' :: 't' :: 'a' :: ':' :: (t.data ++ '/' :: (u.data ++ (';' :: 'b' :: 'a' :: 's' :: 'e' :: '6' :: '4' :: ',' :: p.data))) := by
    simp [String.data_append]
  constructor
  · have hw := no_comma_shape t.data u.data hta hus
    have hL : ('d' :: 'a' :: 't' :: 'a' :: ':' :: (t.data ++ '/' :: (u.data ++ (';' :: 'b' :: 'a' :: 's' :: 'e' :: '6' :: '4' :: ',' :: p.data))) : List Char)
        = ('d' :: 'a' :: 't' :: 'a' :: ':' :: (t.data ++ '/' :: (u.data ++ [';', 'b', 'a', 's', 'e', '6', '4']))) ++ ',' :: p.data := by
      simp
    have hsplit := jsSplit_shape _ p.data hw hp
    unfold cleanBase64Of
    rw [hdata, hL, hsplit]
    exact rfl
  · have hfind := findDataMime_shape _ _ (tryMatchAt_shape t.data u.data p.data htd hud hta hus)
    unfold mimeTypeOf
    rw [hdata, hfind]
    show jsOrStr (some (String.mk (t.data ++ '/' :: u.data))) "image/jpeg" = t ++ "/" ++ u
    have hne : String.mk (t.data ++ '/' :: u.data) ≠ "" := by
      intro e
      have e2 := congrArg String.data e
      simp at e2
    have heq : String.mk (t.data ++ '/' :: u.data) = t ++ "/" ++ u := by
      apply String.ext
      simp [String.data_append]
    rw [heq]
    have hne2 : t ++ "/" ++ u ≠ "" := heq ▸ hne
    simp [jsOrStr, hne2]

/-- C2 counterexample. For the transport-prefixed input with empty
payload, the preprocessing does not forward the (empty) payload: the
falsy fallback forwards the entire original string instead. -/
theorem c2_counterexample_empty_payload :
    ¬ (cleanBase64Of "data:image/png;base64," = "") ∧
    cleanBase64Of "data:image/png;base64," = "data:image/png;base64," := by
  exact ⟨by decide, by decide⟩

/-- C2 (amended). For every transport-prefixed input
`data:<type>/<subtype>;base64,<payload>` whose type and subtype stay in
the regex character classes and whose payload is a non-empty comma-free
(base64) string, preprocessing forwards exactly the payload and infers
the media type `<type>/<subtype>`; every comma-free input is forwarded
unchanged with the default media type `image/jpeg`. -/
theorem c2_data_url_preprocessing :
    ∀ t u p s2 : String,
      (∀ c ∈ t.data, isAlnumChar c = true) → t ≠ "" →
      (∀ c ∈ u.data, isSubtypeChar c = true) → u ≠ "" →
      ',' ∉ p.data → p ≠ "" →
      ',' ∉ s2.data →
      (cleanBase64Of ("data:" ++ t ++ "/" ++ u ++ ";base64," ++ p) = p ∧
       mimeTypeOf ("data:" ++ t ++ "/" ++ u ++ ";base64," ++ p) = t ++ "/" ++ u) ∧
      (cleanBase64Of s2 = s2 ∧ mimeTypeOf s2 = "image/jpeg") := by
  intro t u p s2 hta ht hus hu hp hpne hs2
  have h := preprocess_shape t u p ht hu hta hus hp
  refine ⟨⟨?_, h.2⟩, ?_, ?_⟩
  · rw [h.1, if_neg hpne]
  · unfold cleanBase64Of
    rw [jsSplit_no_sep ',' s2.data hs2]
    rfl
  · unfold mimeTypeOf
    rw [findDataMime_none s2.data hs2]
    rfl

/-- Witness for C2 at concrete inputs: the canonical example and a raw
un-prefixed string. -/
theorem c2_witness :
    cleanBase64Of ("data:" ++ "image" ++ "/" ++ "png" ++ ";base64," ++ "AAAA") = "AAAA" ∧
    mimeTypeOf ("data:" ++ "image" ++ "/" ++ "png" ++ ";base64," ++ "AAAA") = "image" ++ "/" ++ "png" ∧
    cleanBase64Of "rawSELFIE" = "rawSELFIE" ∧
    mimeTypeOf "rawSELFIE" = "image/jpeg" :=
  have h := c2_data_url_preprocessing "image" "png" "AAAA" "rawSELFIE"
    (by decide) (by decide) (by decide) (by decide) (by decide) (by decide) (by decide)
  ⟨h.1.1, h.1.2, h.2.1, h.2.2⟩

/-- C10. For every transport-prefixed input whose payload after the comma
is empty, the entire original string (prefix included) is forwarded as
the image payload, because the empty split result is falsy and falls back
to the whole input; the media type is still inferred from the prefix. -/
theorem c10_empty_payload_fallback :
    ∀ t u : String,
      (∀ c ∈ t.data, isAlnumChar c = true) → t ≠ "" →
      (∀ c ∈ u.data, isSubtypeChar c = true) → u ≠ "" →
      cleanBase64Of ("data:" ++ t ++ "/" ++ u ++ ";base64,") =
        "data:" ++ t ++ "/" ++ u ++ ";base64," ∧
      mimeTypeOf ("data:" ++ t ++ "/" ++ u ++ ";base64,") = t ++ "/" ++ u := by
  intro t u hta ht hus hu
  have h := preprocess_shape t u "" ht hu hta hus (by decide)
  have happ : ("data:" ++ t ++ "/" ++ u ++ ";base64," ++ "" : String)
      = "data:" ++ t ++ "/" ++ u ++ ";base64," := by
    apply String.ext
    simp [String.data_append]
  rw [happ] at h
  rcases h with ⟨h1, h2⟩
  rw [if_pos rfl] at h1
  exact ⟨h1, h2⟩

/-- Witness for C10 at the concrete empty-payload input
`data:image/png;base64,`. -/
theorem c10_witness :
    cleanBase64Of ("data:" ++ "image" ++ "/" ++ "png" ++ ";base64,") =
      "data:" ++ "image" ++ "/" ++ "png" ++ ";base64," ∧
    mimeTypeOf ("data:" ++ "image" ++ "/" ++ "png" ++ ";base64,") = "image" ++ "/" ++ "png" :=
  c10_empty_payload_fallback "image" "png" (by decide) (by decide) (by decide) (by decide)
